import Mathlib

/-!
Verification model of the vocode streaming-conversation core.

Shallow embedding of:
- `vocode/streaming/agent/utils.py`: the token → sentence collator
  (`collate_response_async`), `find_last_punctuation`,
  `get_sentence_from_buffer`;
- `vocode/streaming/streaming_conversation.py`:
  `TranscriptionsWorker.process`, `is_interrupt`, `broadcast_interrupt`,
  `send_speech_to_output`, `terminate`.

Python strings are modelled as Lean `String`; regular-expression tests used
by the source are expanded into explicit character scans with the same
semantics (including Python's rule that `$` also matches just before a
trailing newline).  Async iteration becomes recursion over lists; logging,
wall-clock sleeps and timestamps are omitted as they carry no data flow.
-/

namespace VocodeModel

/-- Python whitespace set used by `str.strip`: space, tab, newline, carriage
return, vertical tab, form feed. -/
def pyIsSpace (c : Char) : Bool :=
  c = ' ' || c = '\t' || c = '\n' || c = '\r' || c = Char.ofNat 11 || c = Char.ofNat 12

/-- Python `str.strip()`: remove whitespace from both ends. -/
def pyStrip (s : String) : String :=
  ⟨((s.data.dropWhile pyIsSpace).reverse.dropWhile pyIsSpace).reverse⟩

/-- Python `token.startswith(" ")`. -/
def pyStartsWithSpace (s : String) : Bool :=
  match s.data with
  | c :: _ => c = ' '
  | [] => false

/-- A sentence-ending character, from `SENTENCE_ENDINGS = [".", "!", "?", "\n"]`
in `vocode/streaming/agent/utils.py`. -/
def isSentenceEnding (c : Char) : Bool :=
  c = '.' || c = '!' || c = '?' || c = '\n'

/-- `re.findall(sentence_endings_pattern, token)` is nonempty iff the token
contains one of the sentence-ending characters. -/
def hasSentenceEnding (s : String) : Bool :=
  s.data.any isSentenceEnding

/-- `re.findall(r"\n", token)` is nonempty iff the token contains a newline. -/
def hasNewline (s : String) : Bool :=
  s.data.any (fun c => c = '\n')

/-- Scanning left over the reversed buffer after the two final characters of a
candidate money match: zero or more digits followed by a dollar sign. -/
def moneyScan : List Char → Bool
  | [] => false
  | x :: xs => x = '$' || (x.isDigit && moneyScan xs)

/-- The reversed buffer matches `\$\d+.` anchored at its start: one arbitrary
non-newline character, then at least one digit, then (after more digits) a
dollar sign. -/
def moneyRev : List Char → Bool
  | c :: d :: rest => c ≠ '\n' && d.isDigit && moneyScan rest
  | _ => false

/-- `bool(re.findall(r"\$\d+.$", buffer))`: the buffer ends with a dollar sign,
one or more digits and one further non-newline character; Python's `$` also
matches just before a single trailing newline. -/
def endsWithMoney (s : String) : Bool :=
  let r := s.data.reverse
  moneyRev r ||
    (match r with
     | '\n' :: rest => moneyRev rest
     | _ => false)

/-- After the leading digit of a candidate list-item match: zero or more
further digits followed by a space or a period. -/
def liScan : List Char → Bool
  | [] => false
  | x :: xs => x = ' ' || x = '.' || (x.isDigit && liScan xs)

/-- `bool(re.match(r"^\d+[ .]", buffer))`: the buffer starts with one or more
digits followed by a space or a period. -/
def isListItem (s : String) : Bool :=
  match s.data with
  | d :: rest => d.isDigit && liScan rest
  | [] => false

/-! ### The token → sentence collator (`collate_response_async`) -/

/-- A stream item of `collate_response_async`: a text token or a
`FunctionFragment {name, arguments}`. -/
inductive Tok where
  | str (s : String)
  | frag (name args : String)
deriving DecidableEq, Repr

/-- An item yielded by the collator: a sentence, or (at end of input, when
requested) the aggregated `FunctionCall {name, arguments}`. -/
inductive OutItem where
  | sentence (s : String)
  | fn (name args : String)
deriving DecidableEq, Repr

/-- The loop state of `collate_response_async`: `buffer`,
`function_name_buffer`, `function_args_buffer`, `prev_ends_with_money`. -/
structure CState where
  buffer : String
  fnName : String
  fnArgs : String
  prevMoney : Bool
deriving DecidableEq, Repr

/-- The initial collator state: all buffers empty, `prev_ends_with_money`
false. -/
def initCState : CState := ⟨"", "", "", false⟩

/-- One iteration of the `async for token in gen` loop of
`collate_response_async`, returning the next state and the items yielded
during the iteration.  An empty token is skipped (`if not token: continue`);
a `FunctionFragment` is always truthy and only extends the function
buffers. -/
def processToken (st : CState) (t : Tok) : CState × List OutItem :=
  match t with
  | .str s =>
    if s = "" then (st, [])
    else
      let moneyFlush := st.prevMoney && pyStartsWithSpace s
      let flushOut : List OutItem :=
        if moneyFlush then [.sentence (pyStrip st.buffer)] else []
      let buf0 := if moneyFlush then "" else st.buffer
      let buffer := buf0 ++ s
      let possibleListItem := isListItem buffer
      let endsMoney := endsWithMoney buffer
      let boundary := if possibleListItem then hasNewline s else hasSentenceEnding s
      if boundary && !endsMoney then
        let toReturn := pyStrip buffer
        (⟨"", st.fnName, st.fnArgs, endsMoney⟩,
          flushOut ++ (if toReturn = "" then [] else [.sentence toReturn]))
      else
        (⟨buffer, st.fnName, st.fnArgs, endsMoney⟩, flushOut)
  | .frag n a => (⟨st.buffer, st.fnName ++ n, st.fnArgs ++ a, st.prevMoney⟩, [])

/-- Run the collator loop over a list of tokens from a given state,
collecting all yielded items in order. -/
def runToks (st : CState) : List Tok → CState × List OutItem
  | [] => (st, [])
  | t :: rest =>
    let p := processToken st t
    let q := runToks p.1 rest
    (q.1, p.2 ++ q.2)

/-- The epilogue of `collate_response_async` after the input ends: yield the
stripped buffer if nonempty, then the aggregated function call if a name
accumulated and `get_functions` is set. -/
def finishColl (st : CState) (getFunctions : Bool) : List OutItem :=
  (if pyStrip st.buffer = "" then [] else [.sentence (pyStrip st.buffer)]) ++
    (if st.fnName ≠ "" && getFunctions then [.fn st.fnName st.fnArgs] else [])

/-- `collate_response_async` on a finite token stream: the full list of items
it yields. -/
def collate (toks : List Tok) (getFunctions : Bool) : List OutItem :=
  let p := runToks initCState toks
  p.2 ++ finishColl p.1 getFunctions

/-- The last character of a string, if any, is a sentence-ending character. -/
def lastCharEnding (s : String) : Bool :=
  match s.data.reverse with
  | c :: _ => isSentenceEnding c
  | [] => false

/-- A token that is a plain well-formed sentence for the round-trip law:
nonempty after trimming, ending in a sentence-ending character, and
triggering neither the list-item nor the monetary exception of the
collator. -/
def wellFormedToken (s : String) : Bool :=
  (pyStrip s != "") && lastCharEnding s && !isListItem s && !endsWithMoney s

/-! ### `find_last_punctuation` and `get_sentence_from_buffer` -/

/-- The sentence-ending characters, in source order. -/
def SENTENCE_ENDINGS : List Char := ['.', '!', '?', '\n']

/-- Helper for `pyRfind`: highest index at or after `i` where `c` occurs,
or `-1`. -/
def rfindFrom (c : Char) : List Char → Nat → Int
  | [], _ => -1
  | x :: xs, i =>
    let r := rfindFrom c xs (i + 1)
    if r ≠ -1 then r else if x = c then (i : Int) else -1

/-- Python `buffer.rfind(ending)` for a single-character `ending`: the highest
index of the character in the string, or `-1` if absent. -/
def pyRfind (s : String) (c : Char) : Int :=
  rfindFrom c s.data 0

/-- `find_last_punctuation` from `vocode/streaming/agent/utils.py`: the list
of `rfind` results over `SENTENCE_ENDINGS` is always nonempty, so the
`if not indices: return None` branch is dead and the maximum (possibly `-1`)
is returned. -/
def find_last_punctuation (buffer : String) : Option Int :=
  let indices := SENTENCE_ENDINGS.map (fun ending => pyRfind buffer ending)
  match indices with
  | [] => none
  | x :: xs => some (xs.foldl max x)

/-- Python truthiness of an `Optional[int]`: `None` and `0` are falsy, every
other integer (including `-1`) is truthy. -/
def pyTruthyOptInt : Option Int → Bool
  | none => false
  | some n => n ≠ 0

/-- `get_sentence_from_buffer`: on a truthy `find_last_punctuation` result
`i` return `(buffer[:i+1], buffer[i+1:])` (Python slices; `i` is `≥ -1` so
`i+1 ≥ 0`), otherwise `(None, None)`. -/
def get_sentence_from_buffer (buffer : String) : Option String × Option String :=
  let lp := find_last_punctuation buffer
  if pyTruthyOptInt lp then
    let j := ((lp.getD (-1)) + 1).toNat
    (some ⟨buffer.data.take j⟩, some ⟨buffer.data.drop j⟩)
  else
    (none, none)

/-! ### Conversation state, interrupts, the Transcriptions stage -/

/-- A `Transcription` as produced by the transcriber: message text,
confidence, finality, and the `is_interrupt` stamp written by the
Transcriptions stage. -/
structure Transcription where
  message : String
  confidence : ℚ
  is_final : Bool
  is_interrupt : Bool
deriving DecidableEq, Repr

/-- Modelled from the spec: `InterruptableEvent` state
(`vocode/streaming/utils/worker.py` is not among the provided sources).
`interruptable` is the `is_interruptable` flag fixed at construction;
`interrupted` records whether cancellation has been signalled. -/
structure IEvent where
  interruptable : Bool
  interrupted : Bool
deriving DecidableEq, Repr

/-- Modelled from the spec: `InterruptableEvent.interrupt()`
(`vocode/streaming/utils/worker.py` is not among the provided sources).
Per the spec, a non-interruptible event refuses interruption but still
records cancellation, and the call returns true iff the event is
interruptible. -/
def interruptEvent (e : IEvent) : IEvent × Bool :=
  ({ e with interrupted := true }, e.interruptable)

/-- The drain loop of `broadcast_interrupt`: pop every queued event; for each
event not already interrupted call `interrupt()` and count the calls that
returned true.  Returns the list of events on which `interrupt()` was called
and the count `num_interrupts`. -/
def broadcastDrain : List IEvent → List IEvent × Nat
  | [] => ([], 0)
  | e :: rest =>
    let p := broadcastDrain rest
    if !e.interrupted then
      (e :: p.1, (if (interruptEvent e).2 then 1 else 0) + p.2)
    else
      (p.1, p.2)

/-- The conversation state touched by the modelled operations of
`StreamingConversation`: the `active` flag, the speaking/interrupt
bookkeeping, the interrupt queue, the task-cancellation flags, a count of
published `TranscriptCompleteEvent`s, and the teardown flags written by
`terminate`. -/
structure ConvState where
  active : Bool
  is_human_speaking : Bool
  current_transcription_is_interrupt : Bool
  interruptQueue : List IEvent
  agentTaskCancelled : Bool
  workerTaskCancelled : Bool
  publishedEvents : Nat
  eventsFlushed : Bool
  synthTorn : Bool
  agentTerm : Bool
  outputTerm : Bool
  transcriberTerm : Bool
  stagesTerm : Bool
  randomAudioTerm : Bool
deriving DecidableEq, Repr

/-- A freshly started conversation: active, human not speaking, empty
interrupt queue, nothing published or torn down. -/
def initialState : ConvState :=
  { active := true
    is_human_speaking := false
    current_transcription_is_interrupt := false
    interruptQueue := []
    agentTaskCancelled := false
    workerTaskCancelled := false
    publishedEvents := 0
    eventsFlushed := false
    synthTorn := false
    agentTerm := false
    outputTerm := false
    transcriberTerm := false
    stagesTerm := false
    randomAudioTerm := false }

/-- `StreamingConversation.broadcast_interrupt`: drain the interrupt queue
without blocking (`get_nowait` until `queue.Empty`), interrupt each event not
already interrupted, then cancel the agent's current task and the
AgentResponses worker's current task; return `num_interrupts > 0`. -/
def broadcast_interrupt (st : ConvState) : ConvState × Bool :=
  let p := broadcastDrain st.interruptQueue
  ({ st with
      interruptQueue := []
      agentTaskCancelled := true
      workerTaskCancelled := true },
    decide (0 < p.2))

/-- `StreamingConversation.is_interrupt`: the transcription's confidence is at
least `min_interrupt_confidence or 0` from the transcriber config. -/
def is_interrupt (minConf : Option ℚ) (t : Transcription) : Bool :=
  decide (minConf.getD 0 ≤ t.confidence)

/-- The observable outcome of one `TranscriptionsWorker.process` call: the
new conversation state, whether `broadcast_interrupt` was called, the
downstream `AgentInput` payload (the stamped transcription) if one was
emitted, and the random-audio side effects. -/
structure TransResult where
  state : ConvState
  broadcastCalled : Bool
  downstream : Option Transcription
  stoppedFiller : Bool
  stoppedFollowUp : Bool
  sentBackTracking : Bool
deriving DecidableEq, Repr

/-- `StreamingConversation.TranscriptionsWorker.process`: drop whitespace-only
messages; when the human is not speaking and the confidence passes
`is_interrupt`, call `broadcast_interrupt` and record its return in
`current_transcription_is_interrupt` (also stopping filler and follow-up
audio, and sending back-tracking audio if configured); stamp the
transcription's `is_interrupt`; set `is_human_speaking = not is_final`; emit
a downstream event only for final transcriptions.  (`backTrack` is the agent
config's `send_back_tracking_audio`; timestamps and logging are omitted.) -/
def processTranscription (minConf : Option ℚ) (backTrack : Bool)
    (st : ConvState) (t : Transcription) : TransResult :=
  if pyStrip t.message = "" then
    { state := st, broadcastCalled := false, downstream := none
      stoppedFiller := false, stoppedFollowUp := false, sentBackTracking := false }
  else
    let fire := !st.is_human_speaking && is_interrupt minConf t
    let st1 : ConvState :=
      if fire then
        { (broadcast_interrupt st).1 with
            current_transcription_is_interrupt := (broadcast_interrupt st).2 }
      else st
    let stamped : Transcription :=
      { t with is_interrupt := st1.current_transcription_is_interrupt }
    { state := { st1 with is_human_speaking := !t.is_final }
      broadcastCalled := fire
      downstream := if t.is_final then some stamped else none
      stoppedFiller := fire
      stoppedFollowUp := fire
      sentBackTracking := fire && backTrack }

/-! ### The rate-paced speech emitter (`send_speech_to_output`) -/

/-- The level-triggered `stop_event` as observed by the emitter loop:
`stopAt = some k` means the event is set from the iteration of chunk index
`k` onward; `none` means it is never observed set. -/
def stopSet (stopAt : Option Nat) (i : Nat) : Bool :=
  match stopAt with
  | some k => decide (k ≤ i)
  | none => false

/-- The `async for chunk_result in synthesis_result.chunk_generator` loop of
`send_speech_to_output`, starting at chunk index `idx`: returns
`some cutOffMessage` if the loop broke on `stop_event` (with
`get_message_up_to(chunk_idx * seconds_per_chunk) + "-"`), else `none`,
together with the chunks handed to the output device.  Pacing sleeps,
timestamps and the `started_event` signal are omitted. -/
def sendLoop {α : Type} (stopAt : Option Nat) (getUpTo : Nat → String)
    (spc : Nat) : List α → Nat → Option String × List α
  | [], _ => (none, [])
  | c :: rest, idx =>
    if stopSet stopAt idx then
      (some (getUpTo (idx * spc) ++ "-"), [])
    else
      let r := sendLoop stopAt getUpTo spc rest (idx + 1)
      (r.1, c :: r.2)

/-- `StreamingConversation.send_speech_to_output` on a finite chunk list:
returns `(message_sent, cut_off, chunks handed to the output device, final
transcript_message text)`.  `message_sent` is the full `message` unless the
loop broke on `stop_event`; the transcript message is finalised to
`message_sent` in both cases. -/
def send_speech_to_output {α : Type} (message : String) (chunks : List α)
    (stopAt : Option Nat) (getUpTo : Nat → String) (spc : Nat) :
    String × Bool × List α × String :=
  match sendLoop stopAt getUpTo spc chunks 0 with
  | (some m, sent) => (m, true, sent, m)
  | (none, sent) => (message, false, sent, message)

/-! ### Termination -/

/-- `StreamingConversation.mark_terminated`: set `active = False`. -/
def mark_terminated (st : ConvState) : ConvState :=
  { st with active := false }

/-- `StreamingConversation.terminate`: mark terminated, broadcast the
interrupt, publish a `TranscriptCompleteEvent` (unconditionally, on every
call), cancel the idle and sentiment tasks, flush the events manager, tear
down the synthesizer, and terminate the agent, output device, transcriber,
stage workers and random-audio manager.  Logging and the vector-db teardown
special case are omitted. -/
def terminate (st : ConvState) : ConvState :=
  let st1 := mark_terminated st
  let st2 := (broadcast_interrupt st1).1
  let st3 := { st2 with publishedEvents := st2.publishedEvents + 1 }
  { st3 with
      eventsFlushed := true
      synthTorn := true
      agentTerm := true
      outputTerm := true
      transcriberTerm := true
      stagesTerm := true
      randomAudioTerm := true }

/-! ## Helper lemmas -/

/-- The drain loop calls `interrupt()` exactly on the queued events that are
not already interrupted, in queue order. -/
theorem broadcastDrain_calls (l : List IEvent) :
    (broadcastDrain l).1 = l.filter (fun e => !e.interrupted) := by
  induction l with
  | nil => rfl
  | cons e rest ih =>
    cases h : e.interrupted <;> simp [broadcastDrain, h, ih]

/-- The drain loop counts a positive number of interrupts exactly when some
queued event is neither interrupted nor non-interruptible. -/
theorem broadcastDrain_pos (l : List IEvent) :
    0 < (broadcastDrain l).2 ↔
      ∃ e ∈ l, e.interrupted = false ∧ e.interruptable = true := by
  induction l with
  | nil => simp [broadcastDrain]
  | cons e rest ih =>
    cases h1 : e.interrupted
    · cases h2 : e.interruptable <;>
        simp [broadcastDrain, interruptEvent, h1, h2, ih]
    · simp [broadcastDrain, h1, ih]

/-- Inserting an empty text token anywhere in the stream does not change the
collator loop: the token is skipped before any buffer mutation. -/
theorem runToks_skip_empty (pre post : List Tok) (st : CState) :
    runToks st (pre ++ Tok.str "" :: post) = runToks st (pre ++ post) := by
  induction pre generalizing st with
  | nil => simp [runToks, processToken]
  | cons t pre ih => simp [runToks, ih]

/-- A string whose last character is sentence-ending contains a
sentence-ending character. -/
theorem lastCharEnding_has (s : String) (h : lastCharEnding s = true) :
    hasSentenceEnding s = true := by
  unfold lastCharEnding at h
  unfold hasSentenceEnding
  rcases hr : s.data.reverse with _ | ⟨c, rest⟩
  · rw [hr] at h; exact absurd h (by simp)
  · rw [hr] at h
    have hc : c ∈ s.data := List.mem_reverse.mp (by rw [hr]; exact List.mem_cons_self _ _)
    exact List.any_eq_true.mpr ⟨c, hc, h⟩

/-- On a plain well-formed sentence token, one collator iteration starting
from the initial state flushes exactly that token, trimmed, and returns to
the initial state. -/
theorem processToken_wellFormed (t : String) (h : wellFormedToken t = true) :
    processToken initCState (.str t) = (initCState, [.sentence (pyStrip t)]) := by
  rw [wellFormedToken, Bool.and_eq_true, Bool.and_eq_true, Bool.and_eq_true] at h
  obtain ⟨⟨⟨h1, h2⟩, h3⟩, h4⟩ := h
  have h1' : pyStrip t ≠ "" := by simpa using h1
  have h3' : isListItem t = false := by simpa using h3
  have h4' : endsWithMoney t = false := by simpa using h4
  have ht : t ≠ "" := by
    intro he
    exact h1' (by rw [he]; rfl)
  have hend : hasSentenceEnding t = true := lastCharEnding_has t h2
  have happ : ("" : String) ++ t = t := rfl
  simp [processToken, initCState, ht, happ, h3', h4', hend, h1']

/-- Claim C4 counterexample: the token stream `"He paid $5."`, `"Wow!"`
consists of well-formed sentences each ending in sentence-ending
punctuation, yet the collator merges them into a single sentence because
the buffer `"He paid $5."` matches the monetary pattern and suppresses the
boundary. -/
theorem c4_counterexample :
    collate [Tok.str "He paid $5.", Tok.str "Wow!"] false
        = [OutItem.sentence "He paid $5.Wow!"]
    ∧ collate [Tok.str "He paid $5.", Tok.str "Wow!"] false
        ≠ [OutItem.sentence "He paid $5.", OutItem.sentence "Wow!"] := by
  constructor
  · decide
  · decide

/-- Claim C4 amended: for a token stream of well-formed sentences — each
nonempty after trimming, ending in a sentence-ending punctuation character,
and triggering neither the list-item prefix `^\d+[ .]` nor the monetary
pattern `\$\d+.$` — the collator yields exactly those sentences trimmed, in
the same order. -/
theorem c4_amended (toks : List String)
    (h : ∀ t ∈ toks, wellFormedToken t = true) (g : Bool) :
    collate (toks.map Tok.str) g
      = toks.map (fun t => OutItem.sentence (pyStrip t)) := by
  suffices hrun : runToks initCState (toks.map Tok.str)
      = (initCState, toks.map (fun t => OutItem.sentence (pyStrip t))) by
    simp only [collate, hrun]
    have hf : finishColl initCState g = [] := rfl
    simp [hf]
  induction toks with
  | nil => rfl
  | cons t rest ih =>
    have h1 := h t (by simp)
    have h2 : ∀ x ∈ rest, wellFormedToken x = true := fun x hx => h x (by simp [hx])
    simp [runToks, processToken_wellFormed t h1, ih h2]

/-- Claim C4 amended, witness: the stream `"Hi."`, `"Go!"` satisfies the
hypotheses and collates to itself trimmed. -/
theorem c4_amended_witness :
    (∀ t ∈ ["Hi.", "Go!"], wellFormedToken t = true)
    ∧ collate [Tok.str "Hi.", Tok.str "Go!"] false
        = [OutItem.sentence "Hi.", OutItem.sentence "Go!"] := by
  constructor
  · decide
  · have h := c4_amended ["Hi.", "Go!"] (by decide) false
    exact h.trans (by decide)

/-- Claim C5: when the accumulated buffer ends with the monetary pattern
`\$\d+.$`, a sentence-ending token does not flush the buffer (first
conjunct: any token leaving the buffer in a monetary state yields nothing
and only extends the buffer); a following token that begins with a space
forces a flush of the previous buffer before being appended (second
conjunct); and the stream `"I owe "`, `"$3"`, `"."`, `"50"`, `" today."`
yields exactly `"I owe $3.50 today."` (third conjunct). -/
theorem c5_money :
    (∀ (st : CState) (tok : String), tok ≠ "" →
        endsWithMoney (st.buffer ++ tok) = true →
        (st.prevMoney && pyStartsWithSpace tok) = false →
        processToken st (.str tok)
          = ({ st with buffer := st.buffer ++ tok, prevMoney := true }, []))
    ∧ (∀ (st : CState) (tok : String), tok ≠ "" →
        st.prevMoney = true → pyStartsWithSpace tok = true →
        (processToken st (.str tok)).2.head?
          = some (OutItem.sentence (pyStrip st.buffer)))
    ∧ collate [Tok.str "I owe ", Tok.str "$3", Tok.str ".", Tok.str "50",
        Tok.str " today."] false
        = [OutItem.sentence "I owe $3.50 today."] := by
  refine ⟨?_, ?_, by decide⟩
  · intro st tok hne hm hmf
    simp [processToken, hne, hmf, hm]
  · intro st tok hne hpm hsp
    simp [processToken, hne, hpm, hsp]
    split <;> (split <;> simp)

/-- Claim C5 witness: with buffer `"I owe $3"` and token `"."`, the combined
buffer ends with the monetary pattern, so the boundary is suppressed: no
sentence is yielded and the buffer becomes `"I owe $3."` with the money flag
set. -/
theorem c5_money_witness :
    (("." : String) ≠ "" ∧ endsWithMoney ("I owe $3" ++ ".") = true)
    ∧ processToken ⟨"I owe $3", "", "", false⟩ (Tok.str ".")
        = (⟨"I owe $3.", "", "", true⟩, []) := by
  refine ⟨⟨by decide, by decide⟩, ?_⟩
  have h := c5_money.1 ⟨"I owe $3", "", "", false⟩ "." (by decide) (by decide) (by decide)
  exact h.trans (by decide)

/-- Claim C6: a token is a sentence boundary if it contains one of
`{'.', '!', '?', '\n'}` unless the buffer matches the list-item prefix
`^\d+[ .]`, in which case only `'\n'` terminates: first conjunct — in a
list-item buffer, a token without a newline flushes nothing; second
conjunct — in a list-item buffer, a token with a newline flushes;
third conjunct — outside a list-item buffer, a token with any
sentence-ending character flushes; and the stream `"1"`, `". First"`,
`"\n"`, `"2"`, `". Second"`, `"\n"` yields `"1. First"`, `"2. Second"`. -/
theorem c6_list_items :
    (∀ (st : CState) (tok : String), tok ≠ "" →
        isListItem (st.buffer ++ tok) = true →
        hasNewline tok = false →
        (st.prevMoney && pyStartsWithSpace tok) = false →
        processToken st (.str tok)
          = (⟨st.buffer ++ tok, st.fnName, st.fnArgs,
              endsWithMoney (st.buffer ++ tok)⟩, []))
    ∧ (∀ (st : CState) (tok : String), tok ≠ "" →
        isListItem (st.buffer ++ tok) = true →
        hasNewline tok = true →
        endsWithMoney (st.buffer ++ tok) = false →
        (st.prevMoney && pyStartsWithSpace tok) = false →
        processToken st (.str tok)
          = (⟨"", st.fnName, st.fnArgs, false⟩,
              if pyStrip (st.buffer ++ tok) = "" then []
              else [OutItem.sentence (pyStrip (st.buffer ++ tok))]))
    ∧ (∀ (st : CState) (tok : String), tok ≠ "" →
        isListItem (st.buffer ++ tok) = false →
        hasSentenceEnding tok = true →
        endsWithMoney (st.buffer ++ tok) = false →
        (st.prevMoney && pyStartsWithSpace tok) = false →
        processToken st (.str tok)
          = (⟨"", st.fnName, st.fnArgs, false⟩,
              if pyStrip (st.buffer ++ tok) = "" then []
              else [OutItem.sentence (pyStrip (st.buffer ++ tok))]))
    ∧ collate [Tok.str "1", Tok.str ". First", Tok.str "\n", Tok.str "2",
        Tok.str ". Second", Tok.str "\n"] false
        = [OutItem.sentence "1. First", OutItem.sentence "2. Second"] := by
  refine ⟨?_, ?_, ?_, by decide⟩
  · intro st tok hne hli hnl hmf
    simp [processToken, hne, hmf, hli, hnl]
  · intro st tok hne hli hnl hm hmf
    simp [processToken, hne, hmf, hli, hnl, hm]
  · intro st tok hne hli hse hm hmf
    simp [processToken, hne, hmf, hli, hse, hm]

/-- Claim C6 witness: with buffer `"1"` and token `". First"`, the combined
buffer matches the list-item prefix and the token has no newline, so
nothing is flushed and the buffer becomes `"1. First"`. -/
theorem c6_list_items_witness :
    ((". First" : String) ≠ "" ∧ isListItem ("1" ++ ". First") = true
      ∧ hasNewline ". First" = false)
    ∧ processToken ⟨"1", "", "", false⟩ (Tok.str ". First")
        = (⟨"1. First", "", "", false⟩, []) := by
  refine ⟨⟨by decide, by decide, by decide⟩, ?_⟩
  have h := c6_list_items.1 ⟨"1", "", "", false⟩ ". First"
    (by decide) (by decide) (by decide) (by decide)
  exact h.trans (by decide)

/-- Claim C1 counterexample: with `min_interrupt_confidence = 1/2` and the
human initially not speaking, processing the non-final transcription
`{"um", 3/10}` and then the non-final transcription `{"stop", 9/10}` calls
`broadcast_interrupt` on neither: in particular the second transcription
does not trigger it, because the first one set `is_human_speaking`. -/
theorem c1_counterexample :
    (processTranscription (some (mkRat 1 2)) false
      (processTranscription (some (mkRat 1 2)) false initialState
        { message := "um", confidence := mkRat 3 10, is_final := false,
          is_interrupt := false }).state
      { message := "stop", confidence := mkRat 9 10, is_final := false,
        is_interrupt := false }).broadcastCalled = false := by
  decide

/-- Claim C1 amended: with `min_interrupt_confidence = 1/2` and the human
initially not speaking, the non-final transcription `{"um", 3/10}` does not
trigger `broadcast_interrupt` (confidence too low) but marks the human as
speaking, and the subsequent non-final transcription `{"stop", 9/10}` also
does not trigger it, because the guard requires the human not to be
speaking. -/
theorem c1_amended :
    (processTranscription (some (mkRat 1 2)) false initialState
        { message := "um", confidence := mkRat 3 10, is_final := false,
          is_interrupt := false }).broadcastCalled = false
    ∧ (processTranscription (some (mkRat 1 2)) false initialState
        { message := "um", confidence := mkRat 3 10, is_final := false,
          is_interrupt := false }).state.is_human_speaking = true
    ∧ (processTranscription (some (mkRat 1 2)) false
        (processTranscription (some (mkRat 1 2)) false initialState
          { message := "um", confidence := mkRat 3 10, is_final := false,
            is_interrupt := false }).state
        { message := "stop", confidence := mkRat 9 10, is_final := false,
          is_interrupt := false }).broadcastCalled = false := by
  refine ⟨by decide, by decide, by decide⟩

/-- With `stop_event` never set, the emitter loop consumes every chunk and
reports no cut-off. -/
theorem sendLoop_none {α : Type} (g : Nat → String) (spc : Nat) (l : List α)
    (idx : Nat) : sendLoop none g spc l idx = (none, l) := by
  induction l generalizing idx with
  | nil => rfl
  | cons c rest ih => simp [sendLoop, stopSet, ih]

/-- With `stop_event` set only from index `k` onward and all chunk indices
below `k`, the emitter loop consumes every chunk and reports no cut-off. -/
theorem sendLoop_no_stop {α : Type} (g : Nat → String) (spc k : Nat)
    (l : List α) (idx : Nat) (h : idx + l.length ≤ k) :
    sendLoop (some k) g spc l idx = (none, l) := by
  induction l generalizing idx with
  | nil => rfl
  | cons c rest ih =>
    have h0 : rest.length + 1 = (c :: rest).length := rfl
    have hs : stopSet (some k) idx = false := by
      simp only [stopSet, decide_eq_false_iff_not]
      omega
    have ih' := ih (idx + 1) (by simp at h ⊢; omega)
    simp [sendLoop, hs, ih']

/-- With `stop_event` set from index `k` onward and enough chunks to reach
`k`, the emitter loop breaks at chunk `k`, returns the cut-off message for
`k * seconds_per_chunk` seconds spoken, and hands over exactly the chunks
before `k`. -/
theorem sendLoop_stop {α : Type} (g : Nat → String) (spc k : Nat)
    (l : List α) (idx : Nat) (h1 : idx ≤ k) (h2 : k - idx < l.length) :
    sendLoop (some k) g spc l idx
      = (some (g (k * spc) ++ "-"), l.take (k - idx)) := by
  induction l generalizing idx with
  | nil => simp at h2
  | cons c rest ih =>
    by_cases hk : k ≤ idx
    · have he : idx = k := Nat.le_antisymm h1 hk
      subst he
      simp [sendLoop, stopSet]
    · have hs : stopSet (some k) idx = false := by
        simp only [stopSet, decide_eq_false_iff_not]
        omega
      have h2' : k - (idx + 1) < rest.length := by simp at h2; omega
      have ih' := ih (idx + 1) (by omega) h2'
      have ht : k - idx = (k - (idx + 1)) + 1 := by omega
      simp [sendLoop, hs, ih', ht]

/-- Claim C2: `send_speech_to_output` returns `(message_sent, cut_off)` with
the chunks handed to the output device and the final transcript text: if
`stop_event` is never observed set the full message is sent, every chunk is
handed over and `cut_off` is false (first and third conjuncts); if it is
observed set before emitting the chunk of 0-based index `k < length`, the
return is `get_message_up_to(k * seconds_per_chunk) + "-"` with
`cut_off = true` and no chunk from index `k` onward is handed over (second
conjunct); in all cases the transcript text equals `message_sent`. -/
theorem c2_send_speech {α : Type} (message : String) (chunks : List α)
    (getUpTo : Nat → String) (spc : Nat) :
    send_speech_to_output message chunks none getUpTo spc
        = (message, false, chunks, message)
    ∧ (∀ k : Nat, k < chunks.length →
        send_speech_to_output message chunks (some k) getUpTo spc
          = (getUpTo (k * spc) ++ "-", true, chunks.take k,
              getUpTo (k * spc) ++ "-"))
    ∧ (∀ k : Nat, chunks.length ≤ k →
        send_speech_to_output message chunks (some k) getUpTo spc
          = (message, false, chunks, message)) := by
  refine ⟨?_, ?_, ?_⟩
  · simp [send_speech_to_output, sendLoop_none]
  · intro k hk
    have h := sendLoop_stop getUpTo spc k chunks 0 (Nat.zero_le _) (by simpa using hk)
    simp [send_speech_to_output, h]
  · intro k hk
    have h := sendLoop_no_stop getUpTo spc k chunks 0 (by simpa using hk)
    simp [send_speech_to_output, h]

/-- Claim C2 witness: a 5-chunk result with `stop_event` set before the chunk
of 0-based index 2 returns `get_message_up_to(2 * seconds_per_chunk) + "-"`
(here `"aa-"` with one letter per second and one second per chunk), reports
the cut-off, and hands over only chunks 0 and 1. -/
theorem c2_send_speech_witness :
    2 < ([10, 20, 30, 40, 50] : List Nat).length
    ∧ send_speech_to_output "hello" ([10, 20, 30, 40, 50] : List Nat) (some 2)
        (fun n => String.mk (List.replicate n 'a')) 1
      = ("aa-", true, [10, 20], "aa-") := by
  constructor
  · decide
  · have h := (c2_send_speech "hello" ([10, 20, 30, 40, 50] : List Nat)
      (fun n => String.mk (List.replicate n 'a')) 1).2.1 2 (by decide)
    exact h.trans (by decide)

/-- A character that never occurs in the scanned list is never found. -/
theorem rfindFrom_not_mem (c : Char) (l : List Char)
    (h : ∀ x ∈ l, x ≠ c) : ∀ i, rfindFrom c l i = -1 := by
  induction l with
  | nil => intro i; rfl
  | cons x xs ih =>
    intro i
    have hx : x ≠ c := h x (List.mem_cons_self _ _)
    have ih' := ih (fun y hy => h y (List.mem_cons_of_mem _ hy)) (i + 1)
    simp [rfindFrom, ih', hx]

/-- On a buffer with no sentence-ending character, `find_last_punctuation`
returns `-1` (wrapped in `some`), not `None`. -/
theorem find_last_no_ending (buffer : String)
    (h : ∀ ch ∈ buffer.data, isSentenceEnding ch = false) :
    find_last_punctuation buffer = some (-1) := by
  have hd : ∀ e ∈ SENTENCE_ENDINGS, pyRfind buffer e = -1 := by
    intro e he
    apply rfindFrom_not_mem
    intro x hx hxe
    have hse : isSentenceEnding e = true := by
      have : e = '.' ∨ e = '!' ∨ e = '?' ∨ e = '\n' := by
        simpa [SENTENCE_ENDINGS] using he
      rcases this with h1 | h1 | h1 | h1 <;> simp [isSentenceEnding, h1]
    rw [← hxe] at hse
    rw [h x hx] at hse
    exact Bool.false_ne_true hse
  have h1 : pyRfind buffer '.' = -1 := hd '.' (by simp [SENTENCE_ENDINGS])
  have h2 : pyRfind buffer '!' = -1 := hd '!' (by simp [SENTENCE_ENDINGS])
  have h3 : pyRfind buffer '?' = -1 := hd '?' (by simp [SENTENCE_ENDINGS])
  have h4 : pyRfind buffer '\n' = -1 := hd '\n' (by simp [SENTENCE_ENDINGS])
  simp [find_last_punctuation, SENTENCE_ENDINGS, h1, h2, h3, h4]

/-- Claim C9 counterexample: on the buffer `"abc"`, which contains no
sentence-ending character, `find_last_punctuation` returns `-1` rather than
`None`, and since `-1` is truthy in Python `get_sentence_from_buffer`
returns `("", "abc")`, not `(None, None)`. -/
theorem c9_counterexample :
    find_last_punctuation "abc" = some (-1)
    ∧ get_sentence_from_buffer "abc" = (some "", some "abc")
    ∧ get_sentence_from_buffer "abc" ≠ (none, none) := by
  refine ⟨by decide, by decide, by decide⟩

/-- Claim C9 amended: `find_last_punctuation` never returns `None`; it
returns the maximum of the `rfind` results, which is `-1` when no ending is
found, and since `-1` is truthy `get_sentence_from_buffer` then returns
`("", buffer)`; it returns `(None, None)` exactly when the last
sentence-ending character occurs at index 0; and for a last ending at index
`i ≥ 1` it returns `(buffer[:i+1], buffer[i+1:])`. -/
theorem c9_amended (buffer : String) :
    (find_last_punctuation buffer).isSome = true
    ∧ ((∀ ch ∈ buffer.data, isSentenceEnding ch = false) →
        find_last_punctuation buffer = some (-1)
        ∧ get_sentence_from_buffer buffer = (some "", some buffer))
    ∧ (find_last_punctuation buffer = some 0 →
        get_sentence_from_buffer buffer = (none, none))
    ∧ (∀ i : Int, 1 ≤ i → find_last_punctuation buffer = some i →
        get_sentence_from_buffer buffer
          = (some ⟨buffer.data.take (i.toNat + 1)⟩,
              some ⟨buffer.data.drop (i.toNat + 1)⟩)) := by
  refine ⟨rfl, ?_, ?_, ?_⟩
  · intro h
    have hf := find_last_no_ending buffer h
    refine ⟨hf, ?_⟩
    simp [get_sentence_from_buffer, hf, pyTruthyOptInt]
  · intro h0
    simp [get_sentence_from_buffer, h0, pyTruthyOptInt]
  · intro i h1 hi
    have hne : i ≠ 0 := by omega
    have htn : (i + 1).toNat = i.toNat + 1 := by omega
    simp [get_sentence_from_buffer, hi, pyTruthyOptInt, hne, htn]

/-- Claim C9 amended, witness: on `"a.b"` the last ending is at index 1, so
`get_sentence_from_buffer` returns `("a.", "b")`. -/
theorem c9_amended_witness :
    ((1 : Int) ≤ 1 ∧ find_last_punctuation "a.b" = some 1)
    ∧ get_sentence_from_buffer "a.b" = (some "a.", some "b") := by
  refine ⟨⟨by decide, by decide⟩, ?_⟩
  have h := (c9_amended "a.b").2.2.2 1 (by decide) (by decide)
  exact h.trans (by decide)

/-! ## Claim theorems continued -/

/-- Claim C3: `broadcast_interrupt` drains the conversation's interrupt queue
without blocking, calls `interrupt()` exactly on the drained events that are
not already interrupted, cancels the agent's current task and the
AgentResponses worker's current task, and returns true iff at least one
`interrupt()` call returned true. -/
theorem c3_broadcast (st : ConvState) :
    (broadcast_interrupt st).1.interruptQueue = []
    ∧ (broadcast_interrupt st).1.agentTaskCancelled = true
    ∧ (broadcast_interrupt st).1.workerTaskCancelled = true
    ∧ (broadcastDrain st.interruptQueue).1
        = st.interruptQueue.filter (fun e => !e.interrupted)
    ∧ ((broadcast_interrupt st).2 = true ↔
        ∃ e ∈ st.interruptQueue, e.interrupted = false ∧ e.interruptable = true) := by
  refine ⟨rfl, rfl, rfl, broadcastDrain_calls _, ?_⟩
  simp only [broadcast_interrupt, decide_eq_true_eq]
  exact broadcastDrain_pos _

/-- Claim C7: the Transcriptions stage emits a downstream `AgentInput` event
iff the transcription's message is not whitespace-only and `is_final` is
true; in particular the empty final transcription with confidence 1 is
dropped. -/
theorem c7_downstream (minConf : Option ℚ) (bt : Bool) (st : ConvState)
    (t : Transcription) :
    ((processTranscription minConf bt st t).downstream.isSome
        = (!(pyStrip t.message == "") && t.is_final))
    ∧ (processTranscription minConf bt st
        { message := "", confidence := 1, is_final := true, is_interrupt := false
        }).downstream = none := by
  constructor
  · by_cases h : pyStrip t.message = ""
    · simp [processTranscription, h]
    · cases hf : t.is_final <;> simp [processTranscription, h, hf]
  · rfl

/-- Claim C8 counterexample: `terminate` publishes a `TranscriptCompleteEvent`
on every call, so a second call on an already-terminated conversation does
change the state (one more publication), contradicting the claimed
idempotence of observable effects. -/
theorem c8_counterexample :
    terminate (terminate initialState) ≠ terminate initialState
    ∧ (terminate initialState).publishedEvents = 1
    ∧ (terminate (terminate initialState)).publishedEvents = 2 := by
  refine ⟨?_, rfl, rfl⟩
  decide

/-- Claim C8 amended: `terminate` sets `active` to false, and a second call on
an already-terminated conversation leaves the conversation state unchanged
except that it publishes one additional `TranscriptCompleteEvent`. -/
theorem c8_amended (st : ConvState) :
    (terminate st).active = false
    ∧ (terminate (terminate st)).active = false
    ∧ terminate (terminate st)
        = { terminate st with publishedEvents := (terminate st).publishedEvents + 1 } := by
  exact ⟨rfl, rfl, rfl⟩

/-- Claim C10: the collator ignores empty-string tokens entirely: inserting an
empty token at any position leaves the yielded sequence of sentences and
function calls unchanged. -/
theorem c10_empty_tokens (pre post : List Tok) (g : Bool) :
    collate (pre ++ Tok.str "" :: post) g = collate (pre ++ post) g := by
  simp [collate, runToks_skip_empty]

end VocodeModel
